import Mathlib

/-!
Verification of the masto_rss content-transformation core (src/main.rs).

The Rust source is shallowly embedded: serde_json `Value` becomes the `Json`
inductive below (a value of `Option Json` stands for the result of parsing a
body string: `none` when the body is not valid JSON), Rust `String` becomes
Lean `String` (the instance validator works on `List Char` so that byte-level
reasoning stays tractable), and fallible operations return `Option`/`Except`.
-/

namespace MastoRss

/-- serde_json `Value`, as used by main.rs.  Objects keep their fields as an
association list; `serde_json::Value::get(key)` is first-match lookup on it. -/
inductive Json where
  | null
  | bool (b : Bool)
  | num (n : Int)
  | str (s : String)
  | arr (elems : List Json)
  | obj (fields : List (String × Json))
deriving Repr

/-- Association-list lookup used to model `serde_json::Value::get` on objects. -/
def lookupField (key : String) : List (String × Json) → Option Json
  | [] => none
  | (k, v) :: rest => if k = key then some v else lookupField key rest

/-- `Value::get(key)`: field lookup, `None` on every non-object value. -/
def Json.get (j : Json) (key : String) : Option Json :=
  match j with
  | .obj fields => lookupField key fields
  | _ => none

/-- `Value::as_str()`. -/
def Json.asStr : Json → Option String
  | .str s => some s
  | _ => none

/-- `Value::as_array()`. -/
def Json.asArr : Json → Option (List Json)
  | .arr elems => some elems
  | _ => none

theorem lookupField_sizeOf {key : String} :
    ∀ {fields : List (String × Json)} {v : Json},
      lookupField key fields = some v → sizeOf v < sizeOf fields := by
  intro fields
  induction fields with
  | nil => intro v h; simp [lookupField] at h
  | cons kv rest ih =>
    intro v h
    simp only [lookupField] at h
    split at h
    · cases h
      cases kv with
      | mk k w => simp; omega
    · have := ih h
      simp
      omega

theorem Json.get_sizeOf {j : Json} {key : String} {v : Json}
    (h : j.get key = some v) : sizeOf v < sizeOf j := by
  cases j <;> simp [Json.get] at h
  case obj fields =>
    have := lookupField_sizeOf h
    simp
    omega

/-- Rust `str::trim`: drop whitespace from both ends (executable model of
the library routine). -/
def strTrim (s : String) : String :=
  ⟨(((s.data.dropWhile Char.isWhitespace).reverse.dropWhile
      Char.isWhitespace).reverse)⟩

/-- main.rs `bluesky_escape_html`: the source chains
`replace('&',"&amp;").replace('<',"&lt;").replace('>',"&gt;").replace('"',"&quot;")`;
because the replacement texts introduce no character that a later pass
rewrites (only `&`, already handled by the first pass), the chain acts
independently on each input character, which is the form used here. -/
def bluesky_escape_html (text : String) : String :=
  String.join (text.data.map fun c =>
    if c = '&' then "&amp;"
    else if c = '<' then "&lt;"
    else if c = '>' then "&gt;"
    else if c = '"' then "&quot;"
    else String.singleton c)

/-- main.rs `MastodonAccount` (both fields `#[serde(default)]`). -/
structure MastodonAccount where
  display_name : String
  username : String
deriving Repr, DecidableEq

/-- main.rs `MastodonAttachment`. -/
structure MastodonAttachment where
  description : Option String
  preview_url : Option String
deriving Repr, DecidableEq

/-- main.rs `MastodonStatus`; `reblog: Option<Box<MastodonStatus>>` makes it a
recursive tree, so it is an inductive with one constructor. -/
inductive MastodonStatus where
  | mk (id : String) (uri : String) (url : Option String)
      (account : MastodonAccount) (content : String) (created_at : String)
      (reblog : Option MastodonStatus)
      (media_attachments : List MastodonAttachment)
deriving Repr

def MastodonStatus.id : MastodonStatus → String
  | .mk i _ _ _ _ _ _ _ => i

def MastodonStatus.uri : MastodonStatus → String
  | .mk _ u _ _ _ _ _ _ => u

def MastodonStatus.url : MastodonStatus → Option String
  | .mk _ _ u _ _ _ _ _ => u

def MastodonStatus.account : MastodonStatus → MastodonAccount
  | .mk _ _ _ a _ _ _ _ => a

def MastodonStatus.content : MastodonStatus → String
  | .mk _ _ _ _ c _ _ _ => c

def MastodonStatus.created_at : MastodonStatus → String
  | .mk _ _ _ _ _ c _ _ => c

def MastodonStatus.reblog : MastodonStatus → Option MastodonStatus
  | .mk _ _ _ _ _ _ r _ => r

def MastodonStatus.media_attachments : MastodonStatus → List MastodonAttachment
  | .mk _ _ _ _ _ _ _ m => m

/-- The media-attachment step of main.rs `content_for`: for each attachment
with a `preview_url`, the accumulated content is rebuilt as
`format!("\n{content}<img src=\"{preview_url}\"{alt_text}>")`, where
`alt_text` is `" alt=\"{description}\""` when a description is present. -/
def content_for_media_step (c : String) (media : MastodonAttachment) : String :=
  match media.preview_url with
  | some preview_url =>
    let alt_text :=
      match media.description with
      | some description => " alt=\"" ++ description ++ "\""
      | none => ""
    "\n" ++ c ++ "<img src=\"" ++ preview_url ++ "\"" ++ alt_text ++ ">"
  | none => c

/-- main.rs `content_for`: base paragraph, then the reblog block (the
reblogged post's author's `display_name`, interpolated verbatim, and the
recursively rendered reblog in a blockquote), then one media step per
attachment in order. -/
def content_for : MastodonStatus → String
  | .mk _ _ _ _ content _ reblog media_attachments =>
    let base := "<p>" ++ content ++ "</p>"
    let withReblog :=
      match reblog with
      | some r =>
        base ++ "\n" ++ r.account.display_name ++ ":\n<blockquote>" ++
          content_for r ++ "</blockquote>"
      | none => base
    media_attachments.foldl content_for_media_step withReblog

/-- Truncation of reblog chains at a given depth: depth 0 drops the reblog,
depth d+1 keeps it and truncates it at depth d.  A renderer that imposed a
hard maximum unwrap depth d would be insensitive to data below that depth,
i.e. would satisfy `content_for s = content_for (truncate_reblogs d s)`. -/
def truncate_reblogs : Nat → MastodonStatus → MastodonStatus
  | 0, .mk i u ur a c ca _ m => .mk i u ur a c ca none m
  | d + 1, .mk i u ur a c ca reblog m =>
    .mk i u ur a c ca (reblog.map (truncate_reblogs d)) m

/-- A reblog chain of the given depth, all levels alike. -/
def reblog_chain : Nat → MastodonStatus
  | 0 => .mk "id" "uri" none ⟨"Name", "user"⟩ "post" "2021-01-01T00:00:00Z" none []
  | n + 1 => .mk "id" "uri" none ⟨"Name", "user"⟩ "post" "2021-01-01T00:00:00Z"
      (some (reblog_chain n)) []

/-! Serde decoding of `Vec<MastodonStatus>` (the derived `Deserialize`
instances): required fields fail the decode when missing or of the wrong
type, `#[serde(default)]` fields fall back to their default when missing,
`Option` fields additionally accept `null`. -/

def decodeString : Json → Option String
  | .str s => some s
  | _ => none

def decodeOptString : Json → Option (Option String)
  | .null => some none
  | .str s => some (some s)
  | _ => none

def decodeAccount : Json → Option MastodonAccount
  | .obj fields => do
    let display_name ←
      match lookupField "display_name" fields with
      | none => some ""
      | some v => decodeString v
    let username ←
      match lookupField "username" fields with
      | none => some ""
      | some v => decodeString v
    some { display_name := display_name, username := username }
  | _ => none

def decodeAttachment : Json → Option MastodonAttachment
  | .obj fields => do
    let description ←
      match lookupField "description" fields with
      | none => some none
      | some v => decodeOptString v
    let preview_url ←
      match lookupField "preview_url" fields with
      | none => some none
      | some v => decodeOptString v
    some { description := description, preview_url := preview_url }
  | _ => none

def decodeStatus : Json → Option MastodonStatus
  | .obj fields => do
    let id ← (lookupField "id" fields).bind decodeString
    let uri ← (lookupField "uri" fields).bind decodeString
    let url ←
      match lookupField "url" fields with
      | none => some none
      | some v => decodeOptString v
    let account ←
      match lookupField "account" fields with
      | none => some { display_name := "", username := "" }
      | some v => decodeAccount v
    let content ←
      match lookupField "content" fields with
      | none => some ""
      | some v => decodeString v
    let created_at ← (lookupField "created_at" fields).bind decodeString
    let reblog ←
      match h : lookupField "reblog" fields with
      | none => some none
      | some .null => some none
      | some v => (decodeStatus v).map some
    let media_attachments ←
      match lookupField "media_attachments" fields with
      | none => some []
      | some (.arr elems) => elems.mapM decodeAttachment
      | some _ => none
    some (.mk id uri url account content created_at reblog media_attachments)
  | _ => none
termination_by j => sizeOf j
decreasing_by
  have := lookupField_sizeOf h
  simp
  omega

/-- `serde_json::from_str::<Vec<MastodonStatus>>`, applied to an
already-parsed JSON value. -/
def decodeStatusList : Json → Option (List MastodonStatus)
  | .arr elems => elems.mapM decodeStatus
  | _ => none

/-- main.rs `UserError`. -/
inductive UserError where
  | InternalError
  | InvalidInstance
  | MissingAccessToken
  | MastodonApiError (message : String)
  | MissingBlueskyCredentials
deriving Repr, DecidableEq

/-- `UserError::status_code` (actix `StatusCode` as its numeric value):
`INTERNAL_SERVER_ERROR` is 500, `BAD_REQUEST` is 400. -/
def UserError.status_code : UserError → Nat
  | .InternalError => 500
  | .InvalidInstance => 400
  | .MissingAccessToken => 400
  | .MastodonApiError _ => 400
  | .MissingBlueskyCredentials => 400

/-- The `derive_more::Display` strings of `UserError`; `error_response` uses
this as the HTTP response body. -/
def UserError.display : UserError → String
  | .InternalError => "An internal error occurred. Please try again later."
  | .InvalidInstance => "Invalid Mastodon instance format."
  | .MissingAccessToken => "Access token is required."
  | .MastodonApiError message => "Mastodon API error: " ++ message
  | .MissingBlueskyCredentials => "Bluesky credentials are required."

/-- Rust `str::split(sep)` on a character list: splitting an empty string
yields one empty piece, every separator occurrence starts a new piece. -/
def splitOn (sep : Char) : List Char → List (List Char)
  | [] => [[]]
  | c :: rest =>
    if c = sep then
      [] :: splitOn sep rest
    else
      match splitOn sep rest with
      | [] => [[c]]
      | l :: ls => (c :: l) :: ls

/-- Rust `str::len()`: the UTF-8 byte length of the string. -/
def byteLen (l : List Char) : Nat :=
  (l.map Char.utf8Size).sum

/-- main.rs `validate_mastodon_instance`, on the hostname's character list.
Rust's first/last-byte hyphen tests (`bytes.first() == Some(&b'-')`) are
modelled as first/last-character tests: the byte `0x2D` occurs as the first
(or last) byte of a UTF-8 string exactly when its first (or last) character
is `-`, since multi-byte characters start with a byte `≥ 0xC2` and end with a
continuation byte `≥ 0x80`.  The per-label checks are folded into one `all`;
the Rust loop returns the same `InvalidInstance` error at the first failing
label, so the overall result is identical. -/
def validate_mastodon_instance (inst : List Char) : Except UserError (List Char) :=
  if inst.isEmpty || decide (byteLen inst > 253)
      || inst.contains '/' || inst.contains ':' || inst.contains '@' then
    .error .InvalidInstance
  else
    if (splitOn '.' inst).all (fun label =>
          !label.isEmpty && decide (byteLen label ≤ 63)
            && !(label.head? == some '-') && !(label.getLast? == some '-')
            && label.all (fun c => c.isAlphanum || c == '-'))
        && !(splitOn '.' inst).isEmpty then
      .ok ("https://".data ++ inst ++ "/".data)
    else
      .error .InvalidInstance

/-- The label rules exactly as the spec words them: length 1 to 63 in
characters, only ASCII alphanumerics and hyphens, no leading or trailing
hyphen. -/
def specValidLabel (label : List Char) : Bool :=
  decide (1 ≤ label.length) && decide (label.length ≤ 63)
    && label.all (fun c => c.isAlphanum || c == '-')
    && !(label.head? == some '-') && !(label.getLast? == some '-')

/-- The hostname rules exactly as the spec words them: non-empty, at most 253
characters, none of `/` `:` `@`, and every `.`-separated label valid. -/
def specValidHostname (inst : List Char) : Bool :=
  !inst.isEmpty && decide (inst.length ≤ 253)
    && !inst.contains '/' && !inst.contains ':' && !inst.contains '@'
    && (splitOn '.' inst).all specValidLabel

/-- main.rs `mastodon_error_message`.  The `body: &str` parameter is modelled
as the result of `serde_json::from_str::<Value>(body)`: `none` when the body
is not valid JSON. -/
def mastodon_error_message (body : Option Json) : Option String := do
  let value ← body
  let error := (value.get "error").bind Json.asStr
  let description := (value.get "error_description").bind Json.asStr
  let message := (value.get "message").bind Json.asStr
  (error.or description).or message

/-- The error-message probe exactly as the spec words it: if the body parses
as JSON, the first of the keys `error`, `error_description`, `message` whose
value is a JSON string, in that priority order. -/
def specErrorProbe (body : Option Json) : Option String :=
  body.bind fun value =>
    ["error", "error_description", "message"].findSome? fun key =>
      (value.get key).bind Json.asStr

/-- reqwest `StatusCode::is_success`: 200 through 299. -/
def statusIsSuccess (status : Nat) : Bool :=
  decide (200 ≤ status) && decide (status < 300)

/-- The response-classification tail of main.rs `fetch_mastodon_timeline`
(everything after the HTTP exchange, which is an external collaborator;
transport failures on the exchange itself map to `UserError::InternalError`
before this point): a non-success status yields `MastodonApiError` with the
extracted message, or the generic `HTTP {status} from Mastodon API.` text; a
success status whose body does not decode as `Vec<MastodonStatus>` yields
`MastodonApiError` with the extracted message, or the generic
`Unexpected response from Mastodon API.` text. -/
def classify_mastodon_response (status : Nat) (body : Option Json) :
    Except UserError (List MastodonStatus) :=
  if !statusIsSuccess status then
    .error (.MastodonApiError
      ((mastodon_error_message body).getD
        ("HTTP " ++ toString status ++ " from Mastodon API.")))
  else
    match body.bind decodeStatusList with
    | some posts => .ok posts
    | none =>
      match mastodon_error_message body with
      | some message => .error (.MastodonApiError message)
      | none => .error (.MastodonApiError "Unexpected response from Mastodon API.")

/-! Model of the chrono library (an external collaborator, spec §1: time
parsing and formatting are assumed correct).  `DateTimeFix` stands for
`DateTime<FixedOffset>`; parsing accepts the RFC 3339 shape
`YYYY-MM-DDThh:mm:ss[.frac](Z|+hh:mm|-hh:mm)` with calendar validation. -/

structure DateTimeFix where
  year : Int
  month : Nat
  day : Nat
  hour : Nat
  minute : Nat
  second : Nat
  offsetMinutes : Int
deriving Repr, DecidableEq

/-- Read exactly `n` ASCII digits, most significant first. -/
def parseNatFixed : Nat → List Char → Nat → Option (Nat × List Char)
  | 0, rest, acc => some (acc, rest)
  | _ + 1, [], _ => none
  | n + 1, c :: rest, acc =>
    if c.isDigit then parseNatFixed n rest (acc * 10 + (c.toNat - 48))
    else none

def expectChar (c : Char) : List Char → Option (List Char)
  | d :: rest => if d = c then some rest else none
  | [] => none

/-- Skip an optional `.digits` fractional-seconds part. -/
def skipFraction : List Char → Option (List Char)
  | '.' :: rest =>
    let digits := rest.takeWhile Char.isDigit
    if digits.isEmpty then none else some (rest.drop digits.length)
  | rest => some rest

def parseOffsetHM (l : List Char) : Option Int := do
  let (hh, rest) ← parseNatFixed 2 l 0
  let rest ← expectChar ':' rest
  let (mm, rest2) ← parseNatFixed 2 rest 0
  if rest2.isEmpty && decide (hh ≤ 23) && decide (mm ≤ 59) then
    some ((hh : Int) * 60 + mm)
  else none

def parseOffset : List Char → Option Int
  | ['Z'] => some 0
  | ['z'] => some 0
  | '+' :: rest => parseOffsetHM rest
  | '-' :: rest => (parseOffsetHM rest).map (fun o => -o)
  | _ => none

def isLeapYear (y : Int) : Bool :=
  (y % 4 == 0 && y % 100 != 0) || y % 400 == 0

def daysInMonth (y : Int) (m : Nat) : Nat :=
  if m = 2 then (if isLeapYear y then 29 else 28)
  else if m = 4 ∨ m = 6 ∨ m = 9 ∨ m = 11 then 30
  else 31

/-- chrono `DateTime::parse_from_rfc3339`. -/
def parse_from_rfc3339 (value : String) : Option DateTimeFix := do
  let (year, rest) ← parseNatFixed 4 value.data 0
  let rest ← expectChar '-' rest
  let (month, rest) ← parseNatFixed 2 rest 0
  let rest ← expectChar '-' rest
  let (day, rest) ← parseNatFixed 2 rest 0
  let rest ←
    match rest with
    | 'T' :: r => some r
    | 't' :: r => some r
    | _ => none
  let (hour, rest) ← parseNatFixed 2 rest 0
  let rest ← expectChar ':' rest
  let (minute, rest) ← parseNatFixed 2 rest 0
  let rest ← expectChar ':' rest
  let (second, rest) ← parseNatFixed 2 rest 0
  let rest ← skipFraction rest
  let offsetMinutes ← parseOffset rest
  if decide (1 ≤ month) && decide (month ≤ 12) && decide (1 ≤ day)
      && decide (day ≤ daysInMonth (year : Int) month)
      && decide (hour ≤ 23) && decide (minute ≤ 59) && decide (second ≤ 60) then
    some { year := (year : Int), month := month, day := day, hour := hour,
           minute := minute, second := second, offsetMinutes := offsetMinutes }
  else none

/-- Days since 1970-01-01 of a civil date (Hinnant's algorithm). -/
def daysFromCivil (y : Int) (m : Nat) (d : Nat) : Int :=
  let y' := if m ≤ 2 then y - 1 else y
  let era : Int := (if y' ≥ 0 then y' else y' - 399) / 400
  let yoe : Int := y' - era * 400
  let mp : Int := ((m : Int) + 9) % 12
  let doy : Int := (153 * mp + 2) / 5 + (d : Int) - 1
  let doe : Int := yoe * 365 + yoe / 4 - yoe / 100 + doy
  era * 146097 + doe - 719468

/-- Civil date from days since 1970-01-01 (Hinnant's algorithm). -/
def civilFromDays (z0 : Int) : Int × Int × Int :=
  let z := z0 + 719468
  let era : Int := (if z ≥ 0 then z else z - 146096) / 146097
  let doe : Int := z - era * 146097
  let yoe : Int := (doe - doe / 1460 + doe / 36524 - doe / 146096) / 365
  let y : Int := yoe + era * 400
  let doy : Int := doe - (365 * yoe + yoe / 4 - yoe / 100)
  let mp : Int := (5 * doy + 2) / 153
  let d : Int := doy - (153 * mp + 2) / 5 + 1
  let m : Int := if mp < 10 then mp + 3 else mp - 9
  (if m ≤ 2 then y + 1 else y, m, d)

/-- chrono `with_timezone(&Utc)`: renormalize the civil time to offset 0. -/
def toUtc (t : DateTimeFix) : DateTimeFix :=
  let totalMin : Int :=
    daysFromCivil t.year t.month t.day * 1440 + (t.hour : Int) * 60 + (t.minute : Int)
      - t.offsetMinutes
  let days := totalMin.fdiv 1440
  let rem := (totalMin - days * 1440).toNat
  match civilFromDays days with
  | (y, m, d) =>
    { year := y, month := m.toNat, day := d.toNat, hour := rem / 60,
      minute := rem % 60, second := t.second, offsetMinutes := 0 }

def weekdayAbbr (t : DateTimeFix) : String :=
  match (((daysFromCivil t.year t.month t.day + 4) % 7 + 7) % 7).toNat with
  | 0 => "Sun"
  | 1 => "Mon"
  | 2 => "Tue"
  | 3 => "Wed"
  | 4 => "Thu"
  | 5 => "Fri"
  | _ => "Sat"

def monthAbbr : Nat → String
  | 1 => "Jan"
  | 2 => "Feb"
  | 3 => "Mar"
  | 4 => "Apr"
  | 5 => "May"
  | 6 => "Jun"
  | 7 => "Jul"
  | 8 => "Aug"
  | 9 => "Sep"
  | 10 => "Oct"
  | 11 => "Nov"
  | _ => "Dec"

def pad2 (n : Nat) : String :=
  if n < 10 then "0" ++ toString n else toString n

def offsetString (minutes : Int) : String :=
  let sign := if minutes < 0 then "-" else "+"
  let a := minutes.natAbs
  sign ++ pad2 (a / 60) ++ pad2 (a % 60)

/-- chrono `to_rfc2822`, e.g. `Fri, 1 Jan 2021 12:00:00 +0000`. -/
def to_rfc2822 (t : DateTimeFix) : String :=
  weekdayAbbr t ++ ", " ++ toString t.day ++ " " ++ monthAbbr t.month ++ " " ++
    toString t.year ++ " " ++ pad2 t.hour ++ ":" ++ pad2 t.minute ++ ":" ++
    pad2 t.second ++ " " ++ offsetString t.offsetMinutes

/-- main.rs `mastodon_pub_date`: RFC 3339 parse, RFC 2822 format, `none` when
the timestamp does not parse. -/
def mastodon_pub_date (value : String) : Option String :=
  (parse_from_rfc3339 value).map to_rfc2822

/-! Model of the rss crate types main.rs builds (serialization itself is an
external collaborator).  `ItemBuilder`/`ChannelBuilder` `build()` cannot fail
for the field sets used here and `write_to(io::sink())` cannot fail either,
so the assemblers always return `Ok`; `InternalError` keeps the source's
error type in the codomain.  The single `media:content` extension that
`create_bluesky_feed` may attach is modelled by the thumbnail URL it carries
(`media_thumbnail`). -/

structure Guid where
  value : String
  permalink : Bool
deriving Repr, DecidableEq

structure Enclosure where
  url : String
  length : String
  mime_type : String
deriving Repr, DecidableEq

structure RssItem where
  title : Option String
  description : Option String
  link : Option String
  guid : Option Guid
  pub_date : Option String
  enclosure : Option Enclosure
  media_thumbnail : Option String
deriving Repr, DecidableEq

structure RssChannel where
  items : List RssItem
  link : String
  title : String
  description : String
deriving Repr, DecidableEq

/-- main.rs `InternalError`. -/
inductive InternalError where
  | RSSItemError
  | ChannelError
deriving Repr, DecidableEq

/-- The item built per post inside main.rs `create_feed`: GUID = post id
(non-permalink), title = display name with fallback to the username when the
trimmed display name is empty, description = `content_for`, link = `url`
falling back to `uri`, pubDate = `mastodon_pub_date(created_at)`. -/
def mastodon_item_for (post : MastodonStatus) : RssItem :=
  { title := some (if (strTrim post.account.display_name).isEmpty then
        post.account.username
      else post.account.display_name)
    description := some (content_for post)
    link := some (post.url.getD post.uri)
    guid := some { value := post.id, permalink := false }
    pub_date := mastodon_pub_date post.created_at
    enclosure := none
    media_thumbnail := none }

/-- main.rs `create_feed` (Mastodon): push one item per post, in order, into
the channel. -/
def create_feed (posts : List MastodonStatus) (mastodon_instance_url : String) :
    Except InternalError RssChannel :=
  let post_items := posts.foldl (fun acc post => acc ++ [mastodon_item_for post]) []
  .ok { items := post_items, link := mastodon_instance_url,
        title := "Mastodon Timeline", description := "Mastodon Timeline" }

/-- main.rs `BlueskyPost`. -/
structure BlueskyPost where
  id : String
  author_handle : String
  author_display_name : String
  content : String
  created_at : Option DateTimeFix
  enclosure : Option Enclosure
  media_thumbnail : Option String
deriving Repr, DecidableEq

/-- main.rs `bluesky_post_link`: profile URL from the handle and the rkey
(last `/`-separated component of the AT URI). -/
def bluesky_post_link (handle : String) (uri : String) : String :=
  let rkey := ((uri.split (fun c => c = '/')).getLast?).getD ""
  "https://bsky.app/profile/" ++ handle ++ "/post/" ++ rkey

/-- main.rs `bluesky_text_from_record`: the record's `text`, escaped, in a
paragraph. -/
def bluesky_text_from_record (record : Json) : Option String :=
  ((record.get "text").bind Json.asStr).map
    (fun text => "<p>" ++ bluesky_escape_html text ++ "</p>")

/-- main.rs `bluesky_repost_by`: for a `reasonRepost`, the reposting author's
display name (skipped when blank) falling back to the handle, escaped. -/
def bluesky_repost_by (reason : Option Json) : Option String := do
  let reason ← reason
  let reason_type ← (reason.get "$type").bind Json.asStr
  if reason_type = "app.bsky.feed.defs#reasonRepost" then
    let author ← reason.get "by"
    let display_name := Option.filter (fun name => !(strTrim name).isEmpty)
      ((author.get "displayName").bind Json.asStr)
    let handle := (author.get "handle").bind Json.asStr
    (display_name.or handle).map bluesky_escape_html
  else none

/-- main.rs `bluesky_images_html`. -/
def bluesky_images_html (embed : Json) : List String :=
  match (embed.get "images").bind Json.asArr with
  | some items =>
    items.filterMap (fun item => do
      let url ← (item.get "fullsize").bind Json.asStr
      let alt := ((item.get "alt").bind Json.asStr).getD ""
      some ("<p><img src=\"" ++ url ++ "\" alt=\"" ++ bluesky_escape_html alt
        ++ "\"></p>"))
  | none => []

/-- main.rs `bluesky_video_html`. -/
def bluesky_video_html (embed : Json) : List String :=
  let playlist := ((embed.get "playlist").bind Json.asStr).getD ""
  if playlist.isEmpty then []
  else
    let alt := ((embed.get "alt").bind Json.asStr).getD "Video thumbnail"
    let thumbnail := ((embed.get "thumbnail").bind Json.asStr).getD ""
    (if !thumbnail.isEmpty then
      ["<p><a href=\"" ++ playlist ++ "\"><img src=\"" ++ thumbnail
        ++ "\" alt=\"" ++ bluesky_escape_html alt ++ "\"></a></p>"]
    else []) ++
    ["<p><a href=\"" ++ playlist ++ "\">Video</a></p>"]

/-- main.rs `bluesky_quote_html`: block quote with the quoted author's
display name (blank skipped, falling back to handle, default `Unknown`,
escaped), the quoted text when non-blank (escaped), and a view link when
both handle and uri exist. -/
def bluesky_quote_html (embed : Json) : Option String := do
  let record ← embed.get "record"
  let record_type ← (record.get "$type").bind Json.asStr
  if record_type = "app.bsky.embed.record#viewRecord" then
    let author := record.get "author"
    let author_name := ((Option.filter (fun name => !(strTrim name).isEmpty)
        ((author.bind (fun a => a.get "displayName")).bind Json.asStr)).or
        ((author.bind (fun a => a.get "handle")).bind Json.asStr)).getD "Unknown"
    let handle := (author.bind (fun a => a.get "handle")).bind Json.asStr
    let text := (((record.get "value").bind (fun v => v.get "text")).bind
      Json.asStr).getD ""
    let uri := (record.get "uri").bind Json.asStr
    let link :=
      match handle, uri with
      | some handle, some uri => bluesky_post_link handle uri
      | _, _ => ""
    some ("<blockquote>"
      ++ ("<p><strong>" ++ bluesky_escape_html author_name ++ "</strong></p>")
      ++ (if !(strTrim text).isEmpty then
            "<p>" ++ bluesky_escape_html text ++ "</p>"
          else "")
      ++ (if !link.isEmpty then
            "<p><a href=\"" ++ link ++ "\">View quoted post</a></p>"
          else "")
      ++ "</blockquote>")
  else none

/-- main.rs `bluesky_embed_html`, recursive through
`recordWithMedia#view`'s `media` field. -/
def bluesky_embed_html (embed : Json) : List String :=
  match (embed.get "$type").bind Json.asStr with
  | some "app.bsky.embed.images#view" => bluesky_images_html embed
  | some "app.bsky.embed.video#view" => bluesky_video_html embed
  | some "app.bsky.embed.record#view" => (bluesky_quote_html embed).toList
  | some "app.bsky.embed.recordWithMedia#view" =>
    (match embed.get "record" with
     | some record => (bluesky_quote_html record).toList
     | none => []) ++
    (match h : embed.get "media" with
     | some media => bluesky_embed_html media
     | none => [])
  | _ => []
termination_by sizeOf embed
decreasing_by
  have := Json.get_sizeOf h
  omega

/-- main.rs `bluesky_image_enclosure`. -/
def bluesky_image_enclosure (url : String) : Enclosure :=
  { url := url, length := "0", mime_type := "image/jpeg" }

/-- main.rs `bluesky_enclosure_from_embed`. -/
def bluesky_enclosure_from_embed : Option Json → Option Enclosure
  | none => none
  | some embed =>
    match (embed.get "$type").bind Json.asStr with
    | some "app.bsky.embed.images#view" =>
      ((embed.get "images").bind Json.asArr).bind fun images =>
        images.head?.bind fun first =>
          (((first.get "thumb").or (first.get "fullsize")).bind Json.asStr).map
            bluesky_image_enclosure
    | some "app.bsky.embed.video#view" =>
      ((embed.get "thumbnail").bind Json.asStr).map bluesky_image_enclosure
    | some "app.bsky.embed.recordWithMedia#view" =>
      (match h : embed.get "media" with
       | some media => bluesky_enclosure_from_embed (some media)
       | none => none)
    | _ => none
termination_by o => sizeOf o
decreasing_by
  have := Json.get_sizeOf h
  simp
  omega

/-- main.rs `bluesky_media_thumbnail_from_embed`. -/
def bluesky_media_thumbnail_from_embed : Option Json → Option String
  | none => none
  | some embed =>
    match (embed.get "$type").bind Json.asStr with
    | some "app.bsky.embed.images#view" =>
      ((embed.get "images").bind Json.asArr).bind fun images =>
        images.head?.bind fun first =>
          ((first.get "thumb").or (first.get "fullsize")).bind Json.asStr
    | some "app.bsky.embed.video#view" => (embed.get "thumbnail").bind Json.asStr
    | some "app.bsky.embed.recordWithMedia#view" =>
      (match h : embed.get "media" with
       | some media => bluesky_media_thumbnail_from_embed (some media)
       | none => none)
    | _ => none
termination_by o => sizeOf o
decreasing_by
  have := Json.get_sizeOf h
  simp
  omega

/-- main.rs `bluesky_content_from_record`: optional repost line, optional
text paragraph, embed fragments, joined with newlines. -/
def bluesky_content_from_record (record : Json) (embed : Option Json)
    (reason : Option Json) : String :=
  let parts :=
    (match bluesky_repost_by reason with
     | some reposter => ["<p><em>Reposted by " ++ reposter ++ "</em></p>"]
     | none => []) ++
    (match bluesky_text_from_record record with
     | some text => [text]
     | none => []) ++
    (match embed with
     | some embed => bluesky_embed_html embed
     | none => [])
  String.intercalate "\n" parts

/-- main.rs `bluesky_created_at`: `createdAt` falling back to `created_at`,
as a string, RFC-3339-parsed to UTC. -/
def bluesky_created_at (record : Json) : Option DateTimeFix :=
  (((record.get "createdAt").or (record.get "created_at")).bind Json.asStr).bind
    (fun value => (parse_from_rfc3339 value).map toUtc)

/-- main.rs `bluesky_parse_timestamp`. -/
def bluesky_parse_timestamp (value : String) : Option DateTimeFix :=
  (parse_from_rfc3339 value).map toUtc

/-- The fields of atrium's `FeedViewPost` that main.rs reads.  The source
round-trips `record`/`embed`/`reason` through `serde_json::to_value`, which
cannot fail on these in-memory values, so they are modelled as the JSON
values that round-trip produces. -/
structure BlueskyAuthor where
  handle : String
  display_name : Option String
deriving Repr, DecidableEq

structure BlueskyPostView where
  uri : String
  author : BlueskyAuthor
  record : Json
  embed : Option Json
  indexed_at : String
deriving Repr

structure FeedViewPost where
  post : BlueskyPostView
  reason : Option Json
deriving Repr

/-- main.rs `bluesky_post_from_feed`. -/
def bluesky_post_from_feed (feed_item : FeedViewPost) : Option BlueskyPost :=
  let record_value := feed_item.post.record
  let embed_value := feed_item.post.embed
  let reason_value := feed_item.reason
  let content := bluesky_content_from_record record_value embed_value reason_value
  let enclosure := bluesky_enclosure_from_embed embed_value
  let media_thumbnail := bluesky_media_thumbnail_from_embed embed_value
  let indexed_at := feed_item.post.indexed_at
  let created_at :=
    (bluesky_created_at record_value).or (bluesky_parse_timestamp indexed_at)
  some { id := feed_item.post.uri,
         author_handle := feed_item.post.author.handle,
         author_display_name :=
           (feed_item.post.author.display_name).getD feed_item.post.author.handle,
         content := content,
         created_at := created_at,
         enclosure := enclosure,
         media_thumbnail := media_thumbnail }

/-- The item built per post inside main.rs `create_bluesky_feed`. -/
def bluesky_item_for (post : BlueskyPost) : RssItem :=
  { title := some post.author_display_name
    description := some post.content
    link := some (bluesky_post_link post.author_handle post.id)
    guid := some { value := post.id, permalink := false }
    pub_date := post.created_at.map to_rfc2822
    enclosure := post.enclosure
    media_thumbnail := post.media_thumbnail }

/-- main.rs `create_bluesky_feed`. -/
def create_bluesky_feed (posts : List BlueskyPost) : Except InternalError RssChannel :=
  let post_items := posts.foldl (fun acc post => acc ++ [bluesky_item_for post]) []
  .ok { items := post_items, link := "https://bsky.app",
        title := "Bluesky Timeline", description := "Bluesky Timeline" }

/-- The mastodon route handler main.rs `feed`, given the already-received
upstream response (status code and parsed body); the HTTP exchange itself is
the external collaborator, and its transport-level failures map to
`UserError::InternalError` before this point. -/
def feed_route (mastodon_instance : List Char) (access_token : String)
    (status : Nat) (body : Option Json) : Except UserError RssChannel := do
  let full_instance_url ← validate_mastodon_instance mastodon_instance
  if (strTrim access_token).isEmpty then
    throw UserError.MissingAccessToken
  else
    let posts ← classify_mastodon_response status body
    match create_feed posts (String.mk full_instance_url) with
    | .ok channel => pure channel
    | .error _ => throw UserError.InternalError

theorem uint32_le_toNat {a b : UInt32} : a ≤ b ↔ a.toNat ≤ b.toNat := by
  rw [UInt32.le_def, BitVec.le_def]; exact Iff.rfl

theorem char_ascii_utf8Size (c : Char) (h : c.isAlphanum = true ∨ c = '-') :
    c.utf8Size = 1 := by
  have hv : c.val.toNat ≤ 127 := by
    rcases h with h | h
    · simp only [Char.isAlphanum, Char.isAlpha, Char.isUpper, Char.isLower, Char.isDigit,
        Bool.or_eq_true, Bool.and_eq_true, decide_eq_true_eq] at h
      have e90 : (90 : UInt32).toNat = 90 := rfl
      have e122 : (122 : UInt32).toNat = 122 := rfl
      have e57 : (57 : UInt32).toNat = 57 := rfl
      rcases h with (⟨h1, h2⟩ | ⟨h1, h2⟩) | ⟨h1, h2⟩ <;>
        · rw [uint32_le_toNat] at h2
          omega
    · subst h; decide
  have hle : c.val ≤ UInt32.ofNatCore 127 Char.utf8Size.proof_1 := by
    rw [uint32_le_toNat]
    exact hv
  rw [Char.utf8Size]
  simp only [hle, if_pos]

theorem splitOn_ne_nil (sep : Char) (l : List Char) : splitOn sep l ≠ [] := by
  induction l with
  | nil => simp [splitOn]
  | cons c rest ih =>
    simp only [splitOn]
    split
    · simp
    · split
      · simp
      · simp

theorem length_le_byteLen (l : List Char) : l.length ≤ byteLen l := by
  induction l with
  | nil => simp [byteLen]
  | cons c rest ih =>
    simp only [byteLen, List.map_cons, List.sum_cons, List.length_cons] at *
    have := Char.utf8Size_pos c
    omega

theorem byteLen_eq_length (l : List Char) (h : ∀ c ∈ l, c.utf8Size = 1) :
    byteLen l = l.length := by
  induction l with
  | nil => simp [byteLen]
  | cons c rest ih =>
    simp only [byteLen, List.map_cons, List.sum_cons, List.length_cons] at *
    rw [h c (by simp), ih (fun d hd => h d (by simp [hd]))]
    omega

theorem mem_splitOn (sep : Char) {c : Char} {l : List Char} (h : c ∈ l) :
    c = sep ∨ ∃ lab ∈ splitOn sep l, c ∈ lab := by
  induction l with
  | nil => simp at h
  | cons d rest ih =>
    rcases List.mem_cons.mp h with rfl | hmem
    · by_cases hd : c = sep
      · exact Or.inl hd
      · right
        simp only [splitOn, if_neg hd]
        rcases hsp : splitOn sep rest with _ | ⟨l0, ls⟩
        · exact ⟨[c], by simp⟩
        · exact ⟨c :: l0, by simp⟩
    · rcases ih hmem with hc | ⟨lab, hlab, hcl⟩
      · exact Or.inl hc
      · right
        simp only [splitOn]
        split
        · exact ⟨lab, by simp [hlab], hcl⟩
        · rcases hsp : splitOn sep rest with _ | ⟨l0, ls⟩
          · rw [hsp] at hlab; simp at hlab
          · rw [hsp] at hlab
            rcases List.mem_cons.mp hlab with rfl | htail
            · exact ⟨d :: lab, by simp, by simp [hcl]⟩
            · exact ⟨lab, by simp [htail], hcl⟩

theorem byteLen_eq_length_of_alnum (label : List Char)
    (h : ∀ c ∈ label, c.isAlphanum = true ∨ c = '-') :
    byteLen label = label.length :=
  byteLen_eq_length label (fun c hc => char_ascii_utf8Size c (h c hc))

theorem label_cond_iff (label : List Char) :
    (!label.isEmpty && decide (byteLen label ≤ 63)
      && !(label.head? == some '-') && !(label.getLast? == some '-')
      && label.all (fun c => c.isAlphanum || c == '-')) = true
    ↔ specValidLabel label = true := by
  simp only [specValidLabel, Bool.and_eq_true, Bool.not_eq_true', decide_eq_true_eq,
    List.all_eq_true, Bool.or_eq_true, beq_iff_eq]
  constructor
  · rintro ⟨⟨⟨⟨hne, hbl⟩, hh⟩, hl⟩, hall⟩
    have hlen := byteLen_eq_length_of_alnum label hall
    have hpos : 1 ≤ label.length := by
      cases label with
      | nil => simp at hne
      | cons a l => simp
    exact ⟨⟨⟨⟨hpos, by omega⟩, hall⟩, hh⟩, hl⟩
  · rintro ⟨⟨⟨⟨hpos, hle⟩, hall⟩, hh⟩, hl⟩
    have hlen := byteLen_eq_length_of_alnum label hall
    have hne : label.isEmpty = false := by
      cases label with
      | nil => simp at hpos
      | cons a l => simp
    exact ⟨⟨⟨⟨hne, by omega⟩, hh⟩, hl⟩, hall⟩

theorem label_cond_bool (label : List Char) :
    (!label.isEmpty && decide (byteLen label ≤ 63)
      && !(label.head? == some '-') && !(label.getLast? == some '-')
      && label.all (fun c => c.isAlphanum || c == '-')) = specValidLabel label :=
  Bool.coe_iff_coe.mp (label_cond_iff label)

theorem specValidLabel_chars {label : List Char} (h : specValidLabel label = true) :
    ∀ c ∈ label, c.isAlphanum = true ∨ c = '-' := by
  simp only [specValidLabel, Bool.and_eq_true, List.all_eq_true, Bool.or_eq_true,
    decide_eq_true_eq, beq_iff_eq, Bool.not_eq_true'] at h
  exact h.1.1.2

theorem byteLen_eq_length_of_labels (inst : List Char)
    (h : ∀ lab ∈ splitOn '.' inst, specValidLabel lab = true) :
    byteLen inst = inst.length := by
  apply byteLen_eq_length
  intro c hc
  rcases mem_splitOn '.' hc with rfl | ⟨lab, hlab, hcl⟩
  · rfl
  · exact char_ascii_utf8Size c (specValidLabel_chars (h lab hlab) c hcl)

theorem validate_cond_iff (inst : List Char) :
    ((inst.isEmpty || decide (byteLen inst > 253) || inst.contains '/'
        || inst.contains ':' || inst.contains '@') = false
      ∧ ((splitOn '.' inst).all (fun label =>
            !label.isEmpty && decide (byteLen label ≤ 63)
              && !(label.head? == some '-') && !(label.getLast? == some '-')
              && label.all (fun c => c.isAlphanum || c == '-'))
          && !(splitOn '.' inst).isEmpty) = true)
      ↔ specValidHostname inst = true := by
  have hfun : (fun label => !label.isEmpty && decide (byteLen label ≤ 63)
      && !(label.head? == some '-') && !(label.getLast? == some '-')
      && label.all (fun c => c.isAlphanum || c == '-')) = specValidLabel :=
    funext label_cond_bool
  rw [hfun]
  simp only [specValidHostname, Bool.or_eq_false_iff, Bool.and_eq_true, Bool.not_eq_true',
    decide_eq_true_eq, decide_eq_false_iff_not, not_lt, List.all_eq_true]
  constructor
  · rintro ⟨⟨⟨⟨⟨hne, hbl⟩, h1⟩, h2⟩, h3⟩, hall, hnil⟩
    have hlen := byteLen_eq_length_of_labels inst hall
    exact ⟨⟨⟨⟨⟨hne, by omega⟩, h1⟩, h2⟩, h3⟩, hall⟩
  · rintro ⟨⟨⟨⟨⟨hne, hle⟩, h1⟩, h2⟩, h3⟩, hall⟩
    have hlen := byteLen_eq_length_of_labels inst hall
    refine ⟨⟨⟨⟨⟨hne, by omega⟩, h1⟩, h2⟩, h3⟩, hall, ?_⟩
    have hnil := splitOn_ne_nil '.' inst
    cases hsp : splitOn '.' inst with
    | nil => exact absurd hsp hnil
    | cons a l => simp

theorem validate_eq_ok_iff (inst : List Char) (r : List Char) :
    validate_mastodon_instance inst = .ok r ↔
      ((inst.isEmpty || decide (byteLen inst > 253) || inst.contains '/'
          || inst.contains ':' || inst.contains '@') = false
        ∧ ((splitOn '.' inst).all (fun label =>
              !label.isEmpty && decide (byteLen label ≤ 63)
                && !(label.head? == some '-') && !(label.getLast? == some '-')
                && label.all (fun c => c.isAlphanum || c == '-'))
            && !(splitOn '.' inst).isEmpty) = true
        ∧ r = "https://".data ++ inst ++ "/".data) := by
  unfold validate_mastodon_instance
  split
  · rename_i h1
    constructor
    · intro hc; cases hc
    · rintro ⟨hg1, -, -⟩; rw [h1] at hg1; cases hg1
  · rename_i h1
    rw [Bool.not_eq_true] at h1
    split
    · rename_i h2
      constructor
      · intro hc
        injection hc with hv
        exact ⟨h1, h2, hv.symm⟩
      · rintro ⟨-, -, rfl⟩; rfl
    · rename_i h2
      rw [Bool.not_eq_true] at h2
      constructor
      · intro hc; cases hc
      · rintro ⟨-, hg2, -⟩; rw [h2] at hg2; cases hg2

/-- Claim C3: the instance validator succeeds and returns exactly
`https://{hostname}/` if and only if the string is non-empty, at most 253
characters, contains none of `/` `:` `@`, and every `.`-separated label has
length 1 to 63, consists only of ASCII alphanumerics and hyphens, and neither
starts nor ends with a hyphen; otherwise it fails with the invalid-instance
error. -/
theorem validator_accepts_iff (inst : List Char) :
    (∀ r, validate_mastodon_instance inst = .ok r ↔
        (specValidHostname inst = true ∧ r = "https://".data ++ inst ++ "/".data))
    ∧ (specValidHostname inst = false →
        validate_mastodon_instance inst = .error .InvalidInstance) := by
  constructor
  · intro r
    rw [validate_eq_ok_iff]
    constructor
    · rintro ⟨hg1, hg2, rfl⟩
      exact ⟨(validate_cond_iff inst).mp ⟨hg1, hg2⟩, rfl⟩
    · rintro ⟨hspec, rfl⟩
      rcases (validate_cond_iff inst).mpr hspec with ⟨hg1, hg2⟩
      exact ⟨hg1, hg2, rfl⟩
  · intro hspec
    unfold validate_mastodon_instance
    split
    · rfl
    · rename_i h1
      rw [Bool.not_eq_true] at h1
      split
      · rename_i h2
        exfalso
        rw [(validate_cond_iff inst).mp ⟨h1, h2⟩] at hspec
        cases hspec
      · rfl

/-- Witness for C3: `mastodon.social` is accepted with the expected URL and
`bad/host` is rejected. -/
theorem validator_accepts_iff_witness :
    validate_mastodon_instance "mastodon.social".data
        = .ok ("https://".data ++ "mastodon.social".data ++ "/".data)
    ∧ validate_mastodon_instance "bad/host".data = .error .InvalidInstance :=
  ⟨((validator_accepts_iff "mastodon.social".data).1 _).mpr ⟨by decide, rfl⟩,
   (validator_accepts_iff "bad/host".data).2 (by decide)⟩

theorem option_or_assoc {α : Type} (a b c : Option α) :
    (a.or b).or c = a.or (b.or c) := by
  cases a <;> rfl

theorem error_message_eq_probe (body : Option Json) :
    mastodon_error_message body = specErrorProbe body := by
  cases body with
  | none => rfl
  | some value =>
    show ((((value.get "error").bind Json.asStr).or
        ((value.get "error_description").bind Json.asStr)).or
        ((value.get "message").bind Json.asStr)) = _
    rw [option_or_assoc]
    simp [specErrorProbe, List.findSome?]
    cases (value.get "error").bind Json.asStr <;>
      cases (value.get "error_description").bind Json.asStr <;>
        cases (value.get "message").bind Json.asStr <;> rfl

/-- Claim C10: the error-message extractor returns `some m` if and only if
the body parses as JSON and at least one of the keys `error`,
`error_description`, `message` is present with a string value, returning the
first such string in that priority order (a key present with a non-string
value is skipped). -/
theorem error_probe_iff (body : Option Json) (m : String) :
    mastodon_error_message body = some m ↔
      ∃ value, body = some value ∧
        (["error", "error_description", "message"].findSome? fun key =>
          (value.get key).bind Json.asStr) = some m := by
  rw [error_message_eq_probe]
  cases body <;> simp [specErrorProbe]

/-- Witness for C10: a non-string `error` value is skipped and the later
string-valued `message` key is returned. -/
theorem error_probe_iff_witness :
    mastodon_error_message
        (some (Json.obj [("error", Json.num 3), ("message", Json.str "msg")]))
      = some "msg" :=
  (error_probe_iff _ "msg").mpr ⟨_, rfl, by decide⟩

/-- Claim C4: a non-success upstream status is classified as an upstream
error whose message probes the JSON body for `error`, `error_description`,
`message` in priority order, falling back to a generic message embedding the
raw status code; a success status whose body is not a valid post list is
likewise an upstream error (probed message or the generic "unexpected
response" message) and is never coerced into a success. -/
theorem classify_upstream_errors (status : Nat) (body : Option Json) :
    (statusIsSuccess status = false →
      classify_mastodon_response status body
        = .error (.MastodonApiError ((specErrorProbe body).getD
            ("HTTP " ++ toString status ++ " from Mastodon API."))))
    ∧ (statusIsSuccess status = true → body.bind decodeStatusList = none →
      classify_mastodon_response status body
        = .error (.MastodonApiError ((specErrorProbe body).getD
            ("Unexpected response from Mastodon API."))))
    ∧ (∀ posts, body.bind decodeStatusList = none →
        classify_mastodon_response status body ≠ .ok posts) := by
  refine ⟨?_, ?_, ?_⟩
  · intro h
    rw [classify_mastodon_response, ← error_message_eq_probe, h]
    rfl
  · intro hs hd
    rw [classify_mastodon_response, ← error_message_eq_probe, hs, hd]
    cases hm : mastodon_error_message body <;> simp [hm, Option.getD]
  · intro posts hd
    rw [classify_mastodon_response]
    cases hsucc : statusIsSuccess status with
    | false => simp
    | true =>
      rw [hd]
      cases hm : mastodon_error_message body <;> simp

/-- Witness for C4 at concrete inputs: HTTP 401 with an `error` body, and
HTTP 200 with a non-JSON body. -/
theorem classify_upstream_errors_witness :
    classify_mastodon_response 401
        (some (Json.obj [("error", Json.str "invalid_token")]))
      = .error (.MastodonApiError "invalid_token")
    ∧ classify_mastodon_response 200 none
      = .error (.MastodonApiError "Unexpected response from Mastodon API.")
    ∧ classify_mastodon_response 200 none ≠ .ok [] :=
  ⟨(classify_upstream_errors 401 _).1 rfl,
   (classify_upstream_errors 200 none).2.1 rfl rfl,
   (classify_upstream_errors 200 none).2.2 [] rfl⟩

theorem chain_display_name (n : Nat) :
    (reblog_chain n).account.display_name = "Name" := by
  cases n <;> rfl

theorem truncate_account (d : Nat) (s : MastodonStatus) :
    (truncate_reblogs d s).account = s.account := by
  cases d <;> cases s <;> rfl

theorem content_for_chain_succ (n : Nat) :
    content_for (reblog_chain (n + 1))
      = "<p>" ++ "post" ++ "</p>" ++ "\n" ++ (reblog_chain n).account.display_name
        ++ ":\n<blockquote>" ++ content_for (reblog_chain n) ++ "</blockquote>" := by
  rw [reblog_chain, content_for]
  rfl

theorem truncate_chain_lt (d : Nat) : ∀ k : Nat,
    (content_for (truncate_reblogs d (reblog_chain (d + k + 1)))).length
      < (content_for (reblog_chain (d + k + 1))).length := by
  induction d with
  | zero =>
    intro k
    have h0 : content_for (truncate_reblogs 0 (reblog_chain (0 + k + 1)))
        = "<p>post</p>" := rfl
    rw [h0, content_for_chain_succ]
    simp only [String.length_append]
    have l1 : ("<p>post</p>" : String).length = 11 := by decide
    have l2 : ("<p>" : String).length = 3 := by decide
    have l3 : ("post" : String).length = 4 := by decide
    have l4 : ("</p>" : String).length = 4 := by decide
    have l5 : (":\n<blockquote>" : String).length = 14 := by decide
    have l6 : ("</blockquote>" : String).length = 13 := by decide
    have l7 : ("\n" : String).length = 1 := by decide
    omega
  | succ d ih =>
    intro k
    have hsucc : (d + 1) + k + 1 = (d + k + 1) + 1 := by omega
    rw [hsucc]
    have htr : truncate_reblogs (d + 1) (reblog_chain ((d + k + 1) + 1))
        = .mk "id" "uri" none ⟨"Name", "user"⟩ "post" "2021-01-01T00:00:00Z"
            (some (truncate_reblogs d (reblog_chain (d + k + 1)))) [] := rfl
    have hleft : content_for (truncate_reblogs (d + 1) (reblog_chain ((d + k + 1) + 1)))
        = "<p>" ++ "post" ++ "</p>" ++ "\n"
          ++ (truncate_reblogs d (reblog_chain (d + k + 1))).account.display_name
          ++ ":\n<blockquote>"
          ++ content_for (truncate_reblogs d (reblog_chain (d + k + 1)))
          ++ "</blockquote>" := by
      rw [htr, content_for]
      rfl
    have hacct : (truncate_reblogs d (reblog_chain (d + k + 1))).account.display_name
        = "Name" := by
      rw [truncate_account, chain_display_name]
    rw [hleft, hacct, content_for_chain_succ, chain_display_name]
    simp only [String.length_append]
    have := ih k
    omega

/-- Counterexample to C6 as stated: no hard maximum recursion depth exists —
for every candidate depth `d` there is a post (a reblog chain of depth
`d + 1`) whose render differs from the render of its depth-`d` truncation,
so the renderer recurses over the full nesting the data carries. -/
theorem no_repost_depth_cap :
    ¬ ∃ d : Nat, ∀ s : MastodonStatus,
        content_for s = content_for (truncate_reblogs d s) := by
  rintro ⟨d, hd⟩
  have hlt := truncate_chain_lt d 0
  rw [← hd (reblog_chain (d + 0 + 1))] at hlt
  exact lt_irrefl _ hlt

/-- Claim C6 as amended: rendering terminates on every input because a
decoded post is a finite tree and `content_for` recurses structurally on it
(it is a total function of this development); but no hard maximum recursion
depth is imposed — for every depth `d`, rendering a chain of depth `d + 1`
produces strictly more output than rendering its depth-`d` truncation, so
the recursion follows the data's full nesting. -/
theorem render_depth_follows_data (d : Nat) :
    (content_for (truncate_reblogs d (reblog_chain (d + 1)))).length
      < (content_for (reblog_chain (d + 1))).length := by
  have := truncate_chain_lt d 0
  simpa using this

theorem foldl_push_eq_map {α β : Type} (f : α → β) (l : List α) (acc : List β) :
    l.foldl (fun a x => a ++ [f x]) acc = acc ++ l.map f := by
  induction l generalizing acc with
  | nil => simp
  | cons x xs ih => simp [List.foldl_cons, ih]

/-- Claim C9: assembling the feed produces channel items in exactly the input
order: the i-th input post yields the i-th output item, with no re-sorting,
insertion, or deletion. -/
theorem create_feed_preserves_order (posts : List MastodonStatus) (url : String) :
    ∃ channel, create_feed posts url = .ok channel
      ∧ channel.items = posts.map mastodon_item_for
      ∧ channel.items.length = posts.length
      ∧ ∀ i : Nat, channel.items[i]? = (posts[i]?).map mastodon_item_for := by
  refine ⟨_, rfl, ?_, ?_, ?_⟩
  · simp [create_feed, foldl_push_eq_map]
  · simp [create_feed, foldl_push_eq_map]
  · intro i
    simp [create_feed, foldl_push_eq_map]

/-- Claim C8: a feed item's pubDate is the RFC 2822 rendering of the post's
`created_at` when that timestamp parses, and is omitted (`none`) when it is
absent or unparsable, on both the Mastodon and the Bluesky path — never
defaulted. -/
theorem pub_date_from_created_at :
    (∀ post : MastodonStatus, (mastodon_item_for post).pub_date
        = (parse_from_rfc3339 post.created_at).map to_rfc2822)
    ∧ (∀ value : String, parse_from_rfc3339 value = none →
        mastodon_pub_date value = none)
    ∧ (∀ post : BlueskyPost, (bluesky_item_for post).pub_date
        = post.created_at.map to_rfc2822)
    ∧ (∀ post : BlueskyPost, post.created_at = none →
        (bluesky_item_for post).pub_date = none) :=
  ⟨fun _ => rfl,
   fun value h => by simp [mastodon_pub_date, h],
   fun _ => rfl,
   fun post h => by simp [bluesky_item_for, h]⟩

/-- Witness for C8: an unparsable timestamp yields no pubDate, and a Bluesky
post without `created_at` yields an item without pubDate. -/
theorem pub_date_from_created_at_witness :
    mastodon_pub_date "not-a-date" = none
    ∧ (bluesky_item_for ⟨"i", "h", "n", "c", none, none, none⟩).pub_date = none :=
  ⟨pub_date_from_created_at.2.1 "not-a-date" (by decide),
   pub_date_from_created_at.2.2.2 ⟨"i", "h", "n", "c", none, none, none⟩ rfl⟩

/-- Claim C7 as amended: on the Mastodon path the feed item title falls back
to the username whenever the trimmed display name is empty; on the Bluesky
path the fallback to the handle applies only when the display name is
*absent* — a present display name is used verbatim, even when empty. -/
theorem display_name_fallback (post : MastodonStatus) (fv : FeedViewPost) :
    ((strTrim post.account.display_name).isEmpty = true →
      (mastodon_item_for post).title = some post.account.username)
    ∧ ((strTrim post.account.display_name).isEmpty = false →
      (mastodon_item_for post).title = some post.account.display_name)
    ∧ (fv.post.author.display_name = none →
      (bluesky_post_from_feed fv).map BlueskyPost.author_display_name
        = some fv.post.author.handle)
    ∧ (∀ name, fv.post.author.display_name = some name →
      (bluesky_post_from_feed fv).map BlueskyPost.author_display_name
        = some name) := by
  refine ⟨?_, ?_, ?_, ?_⟩
  · intro h; simp [mastodon_item_for, h]
  · intro h; simp [mastodon_item_for, h]
  · intro h; simp [bluesky_post_from_feed, h]
  · intro name h; simp [bluesky_post_from_feed, h]

/-- Witness for C7: a whitespace Mastodon display name falls back to the
username, and an absent Bluesky display name falls back to the handle. -/
theorem display_name_fallback_witness :
    (mastodon_item_for (.mk "1" "u" none ⟨" ", "user"⟩ "c" "t" none [])).title
        = some "user"
    ∧ (bluesky_post_from_feed
        ⟨⟨"at://x/app.bsky.feed.post/1", ⟨"alice.example", none⟩,
          Json.obj [], none, "x"⟩, none⟩).map BlueskyPost.author_display_name
        = some "alice.example" :=
  ⟨(display_name_fallback (.mk "1" "u" none ⟨" ", "user"⟩ "c" "t" none [])
      ⟨⟨"", ⟨"", none⟩, Json.obj [], none, ""⟩, none⟩).1 (by decide),
   (display_name_fallback (.mk "1" "u" none ⟨" ", "user"⟩ "c" "t" none [])
      ⟨⟨"at://x/app.bsky.feed.post/1", ⟨"alice.example", none⟩,
        Json.obj [], none, "x"⟩, none⟩).2.2.1 rfl⟩

/-- Counterexample to C7 as stated: on the Bluesky path a post whose author
display name is present but *empty* keeps the empty string as the item
author name instead of falling back to the handle. -/
theorem display_name_empty_counterexample :
    (bluesky_post_from_feed
        ⟨⟨"at://x/app.bsky.feed.post/1", ⟨"alice.example", some ""⟩,
          Json.obj [], none, "x"⟩, none⟩).map BlueskyPost.author_display_name
        = some ""
    ∧ ("" : String) ≠ "alice.example" := by
  constructor
  · simp [bluesky_post_from_feed]
  · decide

/-- Claim C5 as amended: invalid hostname and empty token yield 400-class
user errors; an upstream API failure is returned as `MastodonApiError`,
whose HTTP status is 400 (not 502-class) and whose body embeds the upstream
detail (`Mastodon API error: {message}`); only transport-level failures map
to `InternalError`, which carries status 500 and the fixed internal-error
body. -/
theorem feed_route_statuses (inst : List Char) (token : String)
    (status : Nat) (body : Option Json) :
    (specValidHostname inst = false →
      feed_route inst token status body = .error .InvalidInstance
        ∧ UserError.InvalidInstance.status_code = 400)
    ∧ (specValidHostname inst = true → (strTrim token).isEmpty = true →
      feed_route inst token status body = .error .MissingAccessToken
        ∧ UserError.MissingAccessToken.status_code = 400)
    ∧ (specValidHostname inst = true → (strTrim token).isEmpty = false →
        statusIsSuccess status = false →
      feed_route inst token status body
          = .error (.MastodonApiError ((specErrorProbe body).getD
              ("HTTP " ++ toString status ++ " from Mastodon API.")))
        ∧ ∀ m, (UserError.MastodonApiError m).status_code = 400
            ∧ (UserError.MastodonApiError m).display
              = "Mastodon API error: " ++ m)
    ∧ UserError.InternalError.status_code = 500
    ∧ UserError.InternalError.display
        = "An internal error occurred. Please try again later." := by
  have hok : specValidHostname inst = true →
      validate_mastodon_instance inst = .ok ("https://".data ++ inst ++ "/".data) := by
    intro hspec
    rcases (validate_cond_iff inst).mpr hspec with ⟨hg1, hg2⟩
    exact (validate_eq_ok_iff inst _).mpr ⟨hg1, hg2, rfl⟩
  have herr : specValidHostname inst = false →
      validate_mastodon_instance inst = .error .InvalidInstance := by
    intro hspec
    unfold validate_mastodon_instance
    split
    · rfl
    · rename_i h1
      rw [Bool.not_eq_true] at h1
      split
      · rename_i h2
        exact absurd ((validate_cond_iff inst).mp ⟨h1, h2⟩)
            (by rw [hspec]; exact Bool.false_ne_true)
      · rfl
  refine ⟨?_, ?_, ?_, rfl, rfl⟩
  · intro hspec
    refine ⟨?_, rfl⟩
    simp [feed_route, herr hspec, Bind.bind, Except.bind]
  · intro hspec htok
    refine ⟨?_, rfl⟩
    simp [feed_route, hok hspec, htok, Bind.bind, Except.bind, throw, throwThe,
      MonadExceptOf.throw]
  · intro hspec htok hstatus
    refine ⟨?_, fun m => ⟨rfl, rfl⟩⟩
    have hclassify := (classify_upstream_errors status body).1 hstatus
    simp [feed_route, hok hspec, htok, hclassify, Bind.bind, Except.bind, throw,
      throwThe, MonadExceptOf.throw]

/-- Witness for C5 (amended) at concrete inputs: empty token, bad hostname,
and an upstream 401. -/
theorem feed_route_statuses_witness :
    feed_route "mastodon.social".data "" 200 none = .error .MissingAccessToken
    ∧ feed_route "bad/host".data "token" 200 none = .error .InvalidInstance
    ∧ feed_route "mastodon.social".data "token" 401
        (some (Json.obj [("error", Json.str "invalid_token")]))
      = .error (.MastodonApiError "invalid_token") :=
  ⟨((feed_route_statuses "mastodon.social".data "" 200 none).2.1
      (by decide) (by decide)).1,
   ((feed_route_statuses "bad/host".data "token" 200 none).1 (by decide)).1,
   ((feed_route_statuses "mastodon.social".data "token" 401
      (some (Json.obj [("error", Json.str "invalid_token")]))).2.2.1
      (by decide) (by decide) (by decide)).1⟩

/-- Counterexample to C5 as stated: an upstream API failure (HTTP 401 with an
`error` body) is answered with status 400 — not a 502-class (5xx) status —
and a body that embeds the upstream detail rather than the fixed
internal-error message. -/
theorem feed_route_status_counterexample :
    feed_route "mastodon.social".data "token" 401
        (some (Json.obj [("error", Json.str "invalid_token")]))
      = .error (.MastodonApiError "invalid_token")
    ∧ (UserError.MastodonApiError "invalid_token").status_code = 400
    ∧ ¬ (500 ≤ (UserError.MastodonApiError "invalid_token").status_code)
    ∧ (UserError.MastodonApiError "invalid_token").display
        = "Mastodon API error: invalid_token"
    ∧ (UserError.MastodonApiError "invalid_token").display
        ≠ UserError.InternalError.display := by
  refine ⟨?_, rfl, by decide, rfl, by decide⟩
  rfl

/-- Claim C2 as amended: rendering a post with a repost wrapper appends
`"{author}:\n<blockquote>{inner}</blockquote>"` after the base text, where
the author name is the *reposted* (inner) post's author's display name,
interpolated verbatim (not escaped and without a username fallback). -/
theorem repost_block_rendering (i u : String) (ur : Option String)
    (a : MastodonAccount) (c ca : String) (r : MastodonStatus) :
    content_for (.mk i u ur a c ca (some r) [])
      = "<p>" ++ c ++ "</p>" ++ "\n" ++ r.account.display_name
        ++ ":\n<blockquote>" ++ content_for r ++ "</blockquote>" := rfl

/-- Counterexample to C2 as stated: with outer author `Outer` and reposted
author `In<er`, the appended name is the reposted author's, and it is not
HTML-escaped. -/
theorem repost_block_counterexample :
    content_for (.mk "1" "u" none ⟨"Outer", "outeruser"⟩ "base" "t"
        (some (.mk "2" "u2" none ⟨"In<er", "inneruser"⟩ "inner" "t" none [])) [])
      = "<p>base</p>\nIn<er:\n<blockquote><p>inner</p></blockquote>"
    ∧ ("<p>base</p>\nIn<er:\n<blockquote><p>inner</p></blockquote>" : String)
      ≠ "<p>base</p>\n" ++ bluesky_escape_html "Outer"
        ++ ":\n<blockquote><p>inner</p></blockquote>"
    ∧ ("<p>base</p>\nIn<er:\n<blockquote><p>inner</p></blockquote>" : String)
      ≠ "<p>base</p>\n" ++ bluesky_escape_html "In<er"
        ++ ":\n<blockquote><p>inner</p></blockquote>" := by
  refine ⟨by decide, by decide, by decide⟩

/-- Counterexample to C1 as stated: on the Mastodon path the post content and
the media alt text are interpolated verbatim, not HTML-escaped. -/
theorem escape_counterexample :
    content_for (.mk "1" "u" none ⟨"N", "n"⟩ "A<B" "t" none []) = "<p>A<B</p>"
    ∧ bluesky_escape_html "A<B" = "A&lt;B"
    ∧ ("<p>A<B</p>" : String) ≠ "<p>" ++ bluesky_escape_html "A<B" ++ "</p>"
    ∧ content_for (.mk "1" "u" none ⟨"N", "n"⟩ "c" "t" none
        [⟨some "x\"y", some "P"⟩])
      = "\n<p>c</p><img src=\"P\" alt=\"x\"y\">"
    ∧ ("\n<p>c</p><img src=\"P\" alt=\"x\"y\">" : String)
      ≠ "\n<p>c</p><img src=\"P\" alt=\"" ++ bluesky_escape_html "x\"y" ++ "\">" := by
  refine ⟨by decide, by decide, by decide, by decide, by decide⟩

/-- Claim C1 as amended: on the Bluesky path every interpolated text field
(post text, repost author name, quoted author name and text, media alt text)
is HTML-escaped exactly once, at render time.  On the Mastodon path the post
content, the reblogged author's display name (see C2) and the media alt text
are interpolated verbatim without escaping. -/
theorem escaping_at_render (t txt name alt c : String)
    (htxt : (strTrim txt).isEmpty = false) :
    bluesky_text_from_record (.obj [("text", .str t)])
        = some ("<p>" ++ bluesky_escape_html t ++ "</p>")
    ∧ bluesky_repost_by (some (.obj
          [("$type", .str "app.bsky.feed.defs#reasonRepost"),
           ("by", .obj [("handle", .str name)])]))
        = some (bluesky_escape_html name)
    ∧ bluesky_quote_html (.obj [("record", .obj
          [("$type", .str "app.bsky.embed.record#viewRecord"),
           ("author", .obj [("handle", .str name)]),
           ("value", .obj [("text", .str txt)])])])
        = some ("<blockquote>"
            ++ ("<p><strong>" ++ bluesky_escape_html name ++ "</strong></p>")
            ++ ("<p>" ++ bluesky_escape_html txt ++ "</p>")
            ++ "" ++ "</blockquote>")
    ∧ bluesky_images_html (.obj [("images", .arr
          [.obj [("fullsize", .str "U"), ("alt", .str alt)]])])
        = ["<p><img src=\"U\" alt=\"" ++ bluesky_escape_html alt ++ "\"></p>"]
    ∧ content_for (.mk "i" "u" none ⟨name, "user"⟩ c "t" none [⟨some alt, some "P"⟩])
        = "\n" ++ ("<p>" ++ c ++ "</p>") ++ "<img src=\"" ++ "P" ++ "\""
          ++ (" alt=\"" ++ alt ++ "\"") ++ ">" := by
  refine ⟨rfl, ?_, ?_, ?_, rfl⟩
  · simp [bluesky_repost_by, Json.get, lookupField, Json.asStr, Option.filter,
      Option.or]
  · simp [bluesky_quote_html, Json.get, lookupField, Json.asStr, Option.filter,
      Option.or, htxt, bluesky_post_link,
      show ("" : String).isEmpty = true from by decide]
  · simp [bluesky_images_html, Json.get, lookupField, Json.asStr, Json.asArr]

/-- Witness for C1 (amended): the quoted author's name and quoted text are
escaped at concrete inputs containing `&` and `\"`. -/
theorem escaping_at_render_witness :
    bluesky_quote_html (.obj [("record", .obj
        [("$type", .str "app.bsky.embed.record#viewRecord"),
         ("author", .obj [("handle", .str "h&x")]),
         ("value", .obj [("text", .str "q\"t")])])])
      = some ("<blockquote>"
          ++ ("<p><strong>" ++ bluesky_escape_html "h&x" ++ "</strong></p>")
          ++ ("<p>" ++ bluesky_escape_html "q\"t" ++ "</p>")
          ++ "" ++ "</blockquote>") :=
  (escaping_at_render "t" "q\"t" "h&x" "a" "c" (by decide)).2.2.1

end MastoRss
